import Mathlib

/-!
Verification of the ECU coding-bit registry / byte-bit parsing engine and the
PID-discovery accumulator of a vehicle-diagnostics backend.

The Lean definitions below are a shallow embedding of the Python sources
`services/module_service.py`, `services/pid_service.py` and the data model in
`models/module.py` / `models/pid.py`.  Database tables are modelled as lists of
rows, SQL queries as filters/sorts over those lists, Python sets as `Finset`,
Python strings as `String` with character-list slicing helpers, and float
confidence values as exact rationals.
-/

/-! ## String helpers (Python string primitives used by the services) -/

/-- Python `s.lower()` (character-wise, ASCII-adequate for the brand lists). -/
def strLower (s : String) : String := ⟨s.data.map Char.toLower⟩

/-- Python `s.upper()`. -/
def strUpper (s : String) : String := ⟨s.data.map Char.toUpper⟩

/-- Python slice `s[:n]`. -/
def strTake (s : String) (n : Nat) : String := ⟨s.data.take n⟩

/-- Python `needle in hay` on strings: contiguous substring test. -/
def strContains (hay needle : String) : Bool := decide (needle.data <:+: hay.data)

/-- Python `s.strip()`: drop whitespace from both ends (on character lists). -/
def trimChars (cs : List Char) : List Char :=
  ((cs.dropWhile Char.isWhitespace).reverse.dropWhile Char.isWhitespace).reverse

/-! ## Bitfield decoder (`module_service.parse_coding_bytes`) -/

/-- One hex digit accepted by Python `bytes.fromhex` (value of a decimal
digit, or of an upper- or lowercase hex letter via its ASCII code). -/
def hexDigitVal? (c : Char) : Option Nat :=
  if c.isDigit then some (c.toNat - 48)
  else if 'A' ≤ c && c ≤ 'F' then some (c.toNat - 55)
  else if 'a' ≤ c && c ≤ 'f' then some (c.toNat - 87)
  else none

/-- The ASCII whitespace characters CPython's `Py_ISSPACE` recognises and
`bytes.fromhex` (Python ≥ 3.7) skips between byte pairs. -/
def isPyAsciiSpace (c : Char) : Bool :=
  c == ' ' || c == '\t' || c == '\n' || c == '\x0b' || c == '\x0c' || c == '\r'

/-- Python `bytes.fromhex`: ASCII whitespace before a byte pair is skipped;
each byte is two hex digits read adjacently; a lone trailing digit, a non-hex
non-whitespace character, or whitespace splitting a pair raises `ValueError`
(here: `none`). -/
def parseHexPairs : List Char → Option (List Nat)
  | [] => some []
  | c1 :: rest =>
    if isPyAsciiSpace c1 then parseHexPairs rest
    else
      match rest with
      | [] => none
      | c2 :: rest2 =>
        (hexDigitVal? c1).bind fun hi =>
          (hexDigitVal? c2).bind fun lo =>
            (parseHexPairs rest2).map fun bs => (16 * hi + lo) :: bs

/-- `raw_bytes.replace(" ", "").upper()` from `parse_coding_bytes`. -/
def normalizeHex (s : String) : String := ⟨(s.data.filter (· ≠ ' ')).map Char.toUpper⟩

/-- A coding-bit definition as fetched from `coding_bit_registry`
(the fields of the dict built by `get_coding_bits_for_module` that the
decoder reads, plus the identifying name/description). -/
structure BitDef where
  byteIndex : Nat
  bitIndex : Nat
  name : String
  description : String
deriving DecidableEq, Repr

/-- A decoded bit: the definition's fields plus `currentValue`
(`{**bit_def, "currentValue": current_value}`). -/
structure KnownBit extends BitDef where
  currentValue : Bool
deriving DecidableEq, Repr

/-- The dict returned by `parse_coding_bytes`. -/
structure DecodedReport where
  moduleAddress : String
  rawBytes : String
  knownBits : List KnownBit
  unknownBitCount : Int
  totalBits : Nat
  error : Option String
deriving DecidableEq, Repr

/-- `bool((byte_values[byte_idx] >> bit_idx) & 1)` with the bounds guard
`if byte_idx < len(byte_values) ... else False` from `parse_coding_bytes`. -/
def bitValue (byteValues : List Nat) (d : BitDef) : Bool :=
  if h : d.byteIndex < byteValues.length then
    (byteValues.get ⟨d.byteIndex, h⟩ >>> d.bitIndex) &&& 1 == 1
  else
    false

/-- `module_service.parse_coding_bytes`, with the registry fetch abstracted to
the list `bitDefs` of bit definitions it returns for the module. -/
def parse_coding_bytes (bitDefs : List BitDef) (moduleAddress rawBytes : String) :
    DecodedReport :=
  let raw := normalizeHex rawBytes
  match parseHexPairs raw.data with
  | none =>
    { moduleAddress := moduleAddress, rawBytes := raw, knownBits := [],
      unknownBitCount := 0, totalBits := 0, error := some "Invalid hex format" }
  | some byteValues =>
    let knownBits := bitDefs.map fun d =>
      { toBitDef := d, currentValue := bitValue byteValues d }
    { moduleAddress := moduleAddress, rawBytes := raw, knownBits := knownBits,
      unknownBitCount := (byteValues.length * 8 : Int) - knownBits.length,
      totalBits := byteValues.length * 8, error := none }

/-! ## Manufacturer classifier (`pid_service.get_manufacturer_group`) -/

/-- The closed manufacturer taxonomy (`models/pid.py`, `ManufacturerGroup`). -/
inductive ManufacturerGroup
  | VAG
  | BMW
  | TOYOTA
  | GM
  | FORD
  | STELLANTIS
  | HONDA
  | NISSAN
  | HYUNDAI
  | MERCEDES
  | GENERIC
deriving DecidableEq, Repr

def VAG_MAKES : List String :=
  ["volkswagen", "vw", "audi", "porsche", "lamborghini",
   "bentley", "bugatti", "seat", "skoda", "cupra"]

def BMW_MAKES : List String := ["bmw", "mini", "rolls-royce", "rolls royce"]

def TOYOTA_MAKES : List String := ["toyota", "lexus", "scion"]

def GM_MAKES : List String :=
  ["chevrolet", "chevy", "gmc", "cadillac", "buick", "oldsmobile", "pontiac",
   "saturn", "hummer"]

def FORD_MAKES : List String := ["ford", "lincoln", "mercury"]

def STELLANTIS_MAKES : List String :=
  ["chrysler", "dodge", "jeep", "ram", "fiat", "alfa romeo", "maserati",
   "peugeot", "citroen", "opel", "vauxhall"]

def HONDA_MAKES : List String := ["honda", "acura"]

def NISSAN_MAKES : List String := ["nissan", "infiniti", "datsun"]

def HYUNDAI_MAKES : List String := ["hyundai", "kia", "genesis"]

def MERCEDES_MAKES : List String := ["mercedes", "mercedes-benz", "smart", "maybach"]

/-- All brand substrings of every group, in check order. -/
def ALL_MAKES : List String :=
  VAG_MAKES ++ BMW_MAKES ++ TOYOTA_MAKES ++ GM_MAKES ++ FORD_MAKES ++
    STELLANTIS_MAKES ++ HONDA_MAKES ++ NISSAN_MAKES ++ HYUNDAI_MAKES ++
    MERCEDES_MAKES

/-- `make.lower().strip()`. -/
def normalizeMake (mk : String) : List Char := trimChars (mk.data.map Char.toLower)

/-- `any(m in normalized for m in MAKES)`. -/
def makeMatches (normalized : List Char) (makes : List String) : Bool :=
  makes.any fun m => decide (m.data <:+: normalized)

/-- `pid_service.get_manufacturer_group` (`None` or `""` are falsy in Python). -/
def get_manufacturer_group (make : Option String) : ManufacturerGroup :=
  match make with
  | none => .GENERIC
  | some mk =>
    if mk = "" then .GENERIC
    else
      let normalized := normalizeMake mk
      if makeMatches normalized VAG_MAKES then .VAG
      else if makeMatches normalized BMW_MAKES then .BMW
      else if makeMatches normalized TOYOTA_MAKES then .TOYOTA
      else if makeMatches normalized GM_MAKES then .GM
      else if makeMatches normalized FORD_MAKES then .FORD
      else if makeMatches normalized STELLANTIS_MAKES then .STELLANTIS
      else if makeMatches normalized HONDA_MAKES then .HONDA
      else if makeMatches normalized NISSAN_MAKES then .NISSAN
      else if makeMatches normalized HYUNDAI_MAKES then .HYUNDAI
      else if makeMatches normalized MERCEDES_MAKES then .MERCEDES
      else .GENERIC

/-! ## VIN keys of the two discovery report operations -/

/-- `module_service.report_discovered_module`:
`vin_prefix = vin[:11] if len(vin) >= 11 else vin`. -/
def moduleReportVinKey (vin : String) : String :=
  if 11 ≤ vin.length then strTake vin 11 else vin

/-- `pid_service.get_vin_prefix`:
`if not vin or len(vin) < 8: return ""` then `vin[:8].upper()`. -/
def pidVinKey (vin : String) : String :=
  if vin.length < 8 then "" else strUpper (strTake vin 8)

/-- The derivation the spec states for both report operations: the first 11
characters of the VIN, or the full VIN when it is shorter than 11 characters. -/
def specVinKey (vin : String) : String :=
  if vin.length < 11 then vin else strTake vin 11

/-! ## PID-profile accumulator (`pid_service._update_pid_profile`) -/

/-- A `pid_profiles` row.  `working_pids`/`failed_pids` are manipulated as
Python sets in `_update_pid_profile`, so they are modelled as finite sets;
`confidence` (a float holding exact decimal steps) as an exact rational. -/
structure PIDProfile where
  vinKey : String
  manufacturer : ManufacturerGroup
  platform : Option String
  boost_pid : Option String
  oil_temp_pid : Option String
  charge_air_temp_pid : Option String
  trans_temp_pid : Option String
  working_pids : Finset String
  failed_pids : Finset String
  sample_count : Nat
  confidence : ℚ
deriving DecidableEq

/-- One iteration of the convenience-field loop of `_update_pid_profile`
(the `if "boost" in pid_id.lower() and not boost_pid: ... elif ...` chain);
the state is `(boost_pid, oil_temp_pid, charge_air_temp_pid)`. -/
def convStep (acc : Option String × Option String × Option String) (pid_id : String) :
    Option String × Option String × Option String :=
  if strContains (strLower pid_id) "boost" && acc.1.isNone then
    (some pid_id, acc.2.1, acc.2.2)
  else if strContains (strLower pid_id) "oil_temp" && acc.2.1.isNone then
    (acc.1, some pid_id, acc.2.2)
  else if strContains (strLower pid_id) "charge_air" && acc.2.2.isNone then
    (acc.1, acc.2.1, some pid_id)
  else acc

/-- `for pid_id in new_working: ...` over the convenience-field chain. -/
def convLoop (acc : Option String × Option String × Option String)
    (pids : List String) : Option String × Option String × Option String :=
  pids.foldl convStep acc

/-- The confidence step function computed by `_update_pid_profile` after
incrementing `sample_count` (and asserted by the spec for every call). -/
def confidenceStep (n : Nat) : ℚ :=
  if 10 ≤ n then 0.95
  else if 5 ≤ n then 0.85
  else if 3 ≤ n then 0.75
  else 0.5 + (n : ℚ) * 0.1

/-- `pid_service._update_pid_profile`: upsert of the `PIDProfile` row for
`vinKey` given the reported working/failed PID id lists. -/
def updatePIDProfile (profile? : Option PIDProfile) (vinKey : String)
    (manufacturer : ManufacturerGroup) (new_working new_failed : List String) :
    PIDProfile :=
  match profile? with
  | none =>
    let working_set := new_working.toFinset
    let failed_set := new_failed.toFinset
    let conv := convLoop (none, none, none) new_working
    { vinKey := vinKey
      manufacturer := manufacturer
      platform := none
      boost_pid := conv.1
      oil_temp_pid := conv.2.1
      charge_air_temp_pid := conv.2.2
      trans_temp_pid := none
      working_pids := working_set
      failed_pids := failed_set \ working_set
      sample_count := 1
      confidence := 0.5 }
  | some profile =>
    let existing_working := profile.working_pids
    let existing_failed := profile.failed_pids
    let new_working_set := existing_working ∪ new_working.toFinset
    let new_failed_set := (existing_failed ∪ new_failed.toFinset) \ new_working_set
    let conv := convLoop
      (profile.boost_pid, profile.oil_temp_pid, profile.charge_air_temp_pid)
      new_working
    let sc := profile.sample_count + 1
    { profile with
        boost_pid := conv.1
        oil_temp_pid := conv.2.1
        charge_air_temp_pid := conv.2.2
        working_pids := new_working_set
        failed_pids := new_failed_set
        sample_count := sc
        confidence := confidenceStep sc }

/-! ## Module registry (`module_service.get_modules_for_manufacturer`) and seed -/

/-- A `module_registry` row (the columns the service reads or writes). -/
structure ModuleRow where
  manufacturer : ManufacturerGroup
  address : String
  name : String
  long_name : Option String
  can_id : String
  coding_supported : Bool
  platforms : Option (List String)
  is_active : Bool
  priority : Int
deriving DecidableEq, Repr

/-- The `ORDER BY priority, address` relation. -/
def moduleOrder (a b : ModuleRow) : Prop :=
  a.priority < b.priority ∨ (a.priority = b.priority ∧ a.address ≤ b.address)

instance : DecidableRel moduleOrder := fun a b => by
  unfold moduleOrder; infer_instance

/-- The SQL filter `platforms @> ARRAY[platform]` applied only when `platform`
is truthy; a row whose `platforms` column is NULL does not satisfy `@>`. -/
def modulePlatformFilter (platform? : Option String) (r : ModuleRow) : Bool :=
  match platform? with
  | none => true
  | some p =>
    if p = "" then true
    else
      match r.platforms with
      | none => false
      | some ps => decide (p ∈ ps)

/-- `module_service.get_modules_for_manufacturer` over a table snapshot:
`WHERE manufacturer = m AND is_active` (+ optional platform filter),
`ORDER BY priority, address`. -/
def get_modules_for_manufacturer (table : List ModuleRow)
    (manufacturer : ManufacturerGroup) (platform? : Option String) :
    List ModuleRow :=
  List.insertionSort moduleOrder
    (table.filter fun r =>
      decide (r.manufacturer = manufacturer) && r.is_active &&
        modulePlatformFilter platform? r)

/-- One entry of the `vag_modules` seed list in `seed_vag_modules`. -/
structure SeedModule where
  address : String
  name : String
  long_name : String
  can_id : String
  coding_supported : Bool
  priority : Int
deriving DecidableEq, Repr

/-- The VAG module seed catalog (`module_service.seed_vag_modules`). -/
def vag_modules : List SeedModule :=
  [⟨"01", "Engine", "Engine Control Module (ECM)", "7E0", true, 1⟩,
   ⟨"02", "Transmission", "Transmission Control Module (TCM)", "7E1", true, 2⟩,
   ⟨"03", "ABS/ESP", "ABS Brakes / ESP", "7E2", true, 3⟩,
   ⟨"08", "HVAC", "Auto HVAC / Climatronic", "708", true, 10⟩,
   ⟨"09", "Central Electronics", "Central Electronics (BCM)", "710", true, 5⟩,
   ⟨"15", "Airbag", "Airbag Control Module", "715", true, 4⟩,
   ⟨"16", "Steering Column", "Steering Column Electronics", "716", true, 20⟩,
   ⟨"17", "Instrument Cluster", "Dashboard / Instrument Cluster", "714", true, 6⟩,
   ⟨"19", "CAN Gateway", "CAN Gateway", "716", false, 7⟩,
   ⟨"42", "Driver Door", "Driver Door Electronics", "72A", true, 30⟩,
   ⟨"44", "Steering Assist", "Power Steering", "72C", true, 25⟩,
   ⟨"46", "Central Comfort", "Central Comfort Module", "72E", true, 8⟩,
   ⟨"52", "Passenger Door", "Passenger Door Electronics", "734", true, 31⟩,
   ⟨"62", "Rear Left Door", "Rear Left Door Electronics", "73E", true, 32⟩,
   ⟨"72", "Rear Right Door", "Rear Right Door Electronics", "748", true, 33⟩,
   ⟨"55", "Headlights", "Headlight Range / Leveling", "737", true, 15⟩,
   ⟨"39", "Right Headlight", "Right Headlight", "727", true, 16⟩,
   ⟨"4F", "Central Electronics 2", "Central Electronics 2", "72F", true, 17⟩,
   ⟨"56", "Radio", "Radio Module", "738", true, 40⟩,
   ⟨"57", "TV Tuner", "Television Tuner", "739", true, 41⟩,
   ⟨"5F", "Infotainment", "Information Electronics (MMI)", "73F", true, 9⟩,
   ⟨"47", "Sound System", "Sound System Control Module", "72F", true, 42⟩,
   ⟨"37", "Navigation", "Navigation", "725", true, 43⟩,
   ⟨"13", "ACC", "Adaptive Cruise Control", "713", true, 50⟩,
   ⟨"A5", "Front Sensors", "Front Sensors (ACC)", "7A5", true, 51⟩,
   ⟨"76", "Parking Aid", "Park Distance Control", "74E", true, 52⟩,
   ⟨"6C", "Backup Camera", "Rear View Camera", "744", true, 53⟩,
   ⟨"05", "Kessy", "Access/Start Authorization", "705", true, 60⟩,
   ⟨"22", "AWD", "All-Wheel Drive", "71E", true, 61⟩,
   ⟨"25", "Immobilizer", "Immobilizer", "71F", true, 62⟩,
   ⟨"34", "Level Control", "Air Suspension", "722", true, 63⟩,
   ⟨"36", "Driver Seat", "Driver Seat Memory", "724", true, 64⟩,
   ⟨"38", "Roof Electronics", "Roof Electronics", "726", true, 65⟩,
   ⟨"65", "Tire Pressure", "TPMS", "741", true, 66⟩,
   ⟨"69", "Trailer", "Trailer Module", "745", true, 67⟩,
   ⟨"71", "Battery", "Battery Management", "747", true, 68⟩,
   ⟨"75", "Telematics", "Telematics", "74B", true, 69⟩,
   ⟨"77", "Telephone", "Telephone Module", "74F", true, 70⟩]

/-- Row matches the seed identity `(manufacturer = VAG, address = a)`. -/
def matchesKey (a : String) (r : ModuleRow) : Bool :=
  decide (r.manufacturer = .VAG ∧ r.address = a)

/-- The field update applied to an existing row by `seed_vag_modules`. -/
def applySeed (m : SeedModule) (r : ModuleRow) : ModuleRow :=
  { r with name := m.name, long_name := some m.long_name, can_id := m.can_id,
           coding_supported := m.coding_supported, priority := m.priority }

/-- The row inserted for a missing identity (ORM column defaults:
`platforms = NULL`, `is_active = true`). -/
def newModuleRow (m : SeedModule) : ModuleRow :=
  { manufacturer := .VAG, address := m.address, name := m.name,
    long_name := some m.long_name, can_id := m.can_id,
    coding_supported := m.coding_supported, platforms := none,
    is_active := true, priority := m.priority }

/-- Per-row effect of one seed entry on a row already in the table. -/
def seedPoint (m : SeedModule) (r : ModuleRow) : ModuleRow :=
  if matchesKey m.address r then applySeed m r else r

/-- One iteration of the seed loop: update the existing row for the identity,
or insert a new one. -/
def seedStep (table : List ModuleRow) (m : SeedModule) : List ModuleRow :=
  if table.any (matchesKey m.address) then table.map (seedPoint m)
  else table ++ [newModuleRow m]

/-- `module_service.seed_vag_modules` over a table snapshot. -/
def seed_vag_modules (table : List ModuleRow) : List ModuleRow :=
  vag_modules.foldl seedStep table

/-- Number of module rows for the VAG manufacturer. -/
def countVAG (table : List ModuleRow) : Nat :=
  table.countP fun r => decide (r.manufacturer = .VAG)

/-- Sample registry fetch used by concrete witnesses: two in-range bit
definitions and one whose byte index is beyond a two-byte coding. -/
def sampleBitDefs : List BitDef :=
  [⟨0, 0, "Needle Sweep", "Gauge staging animation on startup"⟩,
   ⟨1, 3, "Shift Paddles", "Paddle shifters active"⟩,
   ⟨6, 0, "Telematics Bit", "Beyond a two-byte coding"⟩]

/-- A stored profile with every convenience field unset, used by concrete
witnesses and counterexamples. -/
def sampleProfile : PIDProfile :=
  { vinKey := "WVWZZZ1K", manufacturer := .VAG, platform := none,
    boost_pid := none, oil_temp_pid := none, charge_air_temp_pid := none,
    trans_temp_pid := none, working_pids := ∅, failed_pids := ∅,
    sample_count := 1, confidence := 0.5 }

/-! ## Theorems -/

theorem hexDigitVal?_eq_none_of_space (c : Char) (h : isPyAsciiSpace c = true) :
    hexDigitVal? c = none := by
  have hcases : c = ' ' ∨ c = '\t' ∨ c = '\n' ∨ c = '\x0b' ∨ c = '\x0c' ∨ c = '\r' := by
    simpa [isPyAsciiSpace, or_assoc] using h
  rcases hcases with rfl | rfl | rfl | rfl | rfl | rfl <;> decide

theorem parseHexPairs_cons_ws (c1 : Char) (rest : List Char)
    (h : isPyAsciiSpace c1 = true) :
    parseHexPairs (c1 :: rest) = parseHexPairs rest := by
  rw [parseHexPairs.eq_def]
  simp [h]

theorem parseHexPairs_single (c1 : Char) (h : isPyAsciiSpace c1 = false) :
    parseHexPairs [c1] = none := by
  rw [parseHexPairs.eq_def]
  simp [h]

theorem parseHexPairs_cons2 (c1 c2 : Char) (rest2 : List Char)
    (h : isPyAsciiSpace c1 = false) :
    parseHexPairs (c1 :: c2 :: rest2) =
      (hexDigitVal? c1).bind fun hi =>
        (hexDigitVal? c2).bind fun lo =>
          (parseHexPairs rest2).map fun bs => (16 * hi + lo) :: bs := by
  rw [parseHexPairs.eq_def]
  simp [h]

theorem parseHexPairs_none_of_bad_char : ∀ cs : List Char,
    (∃ c ∈ cs, hexDigitVal? c = none ∧ isPyAsciiSpace c = false) →
    parseHexPairs cs = none := by
  intro cs
  induction cs using parseHexPairs.induct with
  | case1 =>
    intro hex
    simp at hex
  | case2 c1 rest hws ih =>
    intro hex
    obtain ⟨c, hc, hbad⟩ := hex
    have hcrest : c ∈ rest := by
      rcases List.mem_cons.mp hc with rfl | hc'
      · rw [hws] at hbad
        cases hbad.2
      · exact hc'
    rw [parseHexPairs_cons_ws c1 rest hws]
    exact ih ⟨c, hcrest, hbad⟩
  | case3 c1 hnws =>
    intro _
    exact parseHexPairs_single c1 (by simpa using hnws)
  | case4 c1 hnws c2 rest2 ih =>
    intro hex
    rw [parseHexPairs_cons2 c1 c2 rest2 (by simpa using hnws)]
    obtain ⟨c, hc, hbad⟩ := hex
    rcases List.mem_cons.mp hc with rfl | hc'
    · rw [hbad.1]
      rfl
    rcases List.mem_cons.mp hc' with rfl | hc''
    · rw [hbad.1]
      cases hexDigitVal? c1 <;> rfl
    · rw [ih ⟨c, hc'', hbad⟩]
      cases hexDigitVal? c1 <;> cases hexDigitVal? c2 <;> rfl

theorem parseHexPairs_digit_count : ∀ (cs : List Char) (bs : List Nat),
    parseHexPairs cs = some bs →
    (cs.countP fun c => (hexDigitVal? c).isSome) = 2 * bs.length := by
  intro cs
  induction cs using parseHexPairs.induct with
  | case1 =>
    intro bs h
    simp [parseHexPairs] at h
    subst h
    rfl
  | case2 c1 rest hws ih =>
    intro bs h
    rw [parseHexPairs_cons_ws c1 rest hws] at h
    have hnone := hexDigitVal?_eq_none_of_space c1 hws
    rw [List.countP_cons]
    simp [hnone]
    exact ih bs h
  | case3 c1 hnws =>
    intro bs h
    rw [parseHexPairs_single c1 (by simpa using hnws)] at h
    cases h
  | case4 c1 hnws c2 rest2 ih =>
    intro bs h
    rw [parseHexPairs_cons2 c1 c2 rest2 (by simpa using hnws)] at h
    cases e1 : hexDigitVal? c1 with
    | none => rw [e1] at h; cases h
    | some hi =>
      cases e2 : hexDigitVal? c2 with
      | none => rw [e1, e2] at h; cases h
      | some lo =>
        cases e3 : parseHexPairs rest2 with
        | none => rw [e1, e2, e3] at h; cases h
        | some bs' =>
          rw [e1, e2, e3] at h
          simp at h
          rw [List.countP_cons, List.countP_cons, ih bs' e3]
          simp [e1, e2, ← h]
          ring

/-- C1: for well-formed hex input, decode reports every fetched bit definition
exactly once, with `currentValue = ((bytes[byte_index] >> bit_index) & 1) == 1`
for in-range byte indices and `currentValue = false` for out-of-range ones;
the error field stays empty (no exception in either case). -/
theorem decode_known_bits_correct (bitDefs : List BitDef) (addr raw : String)
    (bs : List Nat) (hp : parseHexPairs (normalizeHex raw).data = some bs)
    (hnd : bitDefs.Nodup) :
    (parse_coding_bytes bitDefs addr raw).error = none ∧
    (parse_coding_bytes bitDefs addr raw).knownBits.map KnownBit.toBitDef = bitDefs ∧
    (∀ d ∈ bitDefs,
      ((parse_coding_bytes bitDefs addr raw).knownBits.countP
        fun kb => kb.toBitDef == d) = 1) ∧
    (∀ kb ∈ (parse_coding_bytes bitDefs addr raw).knownBits,
      (∀ h : kb.toBitDef.byteIndex < bs.length,
        kb.currentValue =
          ((bs.get ⟨kb.toBitDef.byteIndex, h⟩ >>> kb.toBitDef.bitIndex) &&& 1 == 1)) ∧
      (bs.length ≤ kb.toBitDef.byteIndex → kb.currentValue = false)) := by
  refine ⟨?_, ?_, ?_, ?_⟩
  · simp [parse_coding_bytes, hp]
  · simp only [parse_coding_bytes, hp, List.map_map]
    have h : (KnownBit.toBitDef ∘ fun d => KnownBit.mk d (bitValue bs d)) = id := rfl
    rw [h, List.map_id]
  · intro d hd
    simp only [parse_coding_bytes, hp, List.countP_map]
    have : ((fun kb : KnownBit => kb.toBitDef == d) ∘
        fun d' => KnownBit.mk d' (bitValue bs d')) = fun d' => d' == d := rfl
    rw [this]
    exact List.count_eq_one_of_mem hnd hd
  · intro kb hkb
    simp only [parse_coding_bytes, hp, List.mem_map] at hkb
    obtain ⟨d, hd, rfl⟩ := hkb
    constructor
    · intro h
      simp [bitValue, h]
    · intro h
      simp [bitValue, Nat.not_lt.mpr h]

/-- C1 witness: decoding `"0B 04"` against the sample registry fetch. -/
theorem decode_known_bits_correct_witness :
    parseHexPairs (normalizeHex "0B 04").data = some [11, 4] ∧
    sampleBitDefs.Nodup ∧
    (parse_coding_bytes sampleBitDefs "17" "0B 04").error = none ∧
    ((parse_coding_bytes sampleBitDefs "17" "0B 04").knownBits.countP
      fun kb => kb.toBitDef ==
        BitDef.mk 0 0 "Needle Sweep" "Gauge staging animation on startup") = 1 := by
  have h := decode_known_bits_correct sampleBitDefs "17" "0B 04" [11, 4]
    (by decide) (by decide)
  exact ⟨by decide, by decide, h.1, h.2.2.1 _ (by decide)⟩

/-- C2: for well-formed hex input the report satisfies
`totalBits = 8 * len(bytes)` and
`unknownBitCount = totalBits - len(knownBits)`, including the empty-registry
case where `knownBits = []` and `unknownBitCount = totalBits`. -/
theorem decode_bit_count_invariant (bitDefs : List BitDef) (addr raw : String)
    (bs : List Nat) (hp : parseHexPairs (normalizeHex raw).data = some bs) :
    (parse_coding_bytes bitDefs addr raw).totalBits = 8 * bs.length ∧
    (parse_coding_bytes bitDefs addr raw).unknownBitCount =
      ((parse_coding_bytes bitDefs addr raw).totalBits : Int) -
        (parse_coding_bytes bitDefs addr raw).knownBits.length ∧
    (bitDefs = [] →
      (parse_coding_bytes bitDefs addr raw).knownBits = [] ∧
      (parse_coding_bytes bitDefs addr raw).unknownBitCount =
        ((parse_coding_bytes bitDefs addr raw).totalBits : Int)) := by
  refine ⟨?_, ?_, ?_⟩
  · simp [parse_coding_bytes, hp, Nat.mul_comm]
  · simp [parse_coding_bytes, hp]
  · intro hempty
    subst hempty
    simp [parse_coding_bytes, hp]

/-- C2 witness: a six-byte coding decoded against an empty registry fetch. -/
theorem decode_bit_count_invariant_witness :
    (parse_coding_bytes [] "17" "0B0400000000").totalBits = 8 * 6 ∧
    (parse_coding_bytes [] "17" "0B0400000000").unknownBitCount =
      ((parse_coding_bytes [] "17" "0B0400000000").totalBits : Int) -
        (parse_coding_bytes [] "17" "0B0400000000").knownBits.length ∧
    (parse_coding_bytes [] "17" "0B0400000000").knownBits = [] ∧
    (parse_coding_bytes [] "17" "0B0400000000").unknownBitCount =
      ((parse_coding_bytes [] "17" "0B0400000000").totalBits : Int) := by
  have h := decode_bit_count_invariant [] "17" "0B0400000000"
    [11, 4, 0, 0, 0, 0] (by decide)
  exact ⟨h.1, h.2.1, (h.2.2 rfl).1, (h.2.2 rfl).2⟩

/-- C3 counterexample: `rawBytes = "0B\t04"` contains a non-hex character
(TAB) after stripping spaces and uppercasing, so the claim asserts an error
report — yet `bytes.fromhex` skips ASCII whitespace between byte pairs, so
decode succeeds with no error and a full 16-bit report. -/
theorem decode_invalid_hex_succeeds_on_tab :
    '\t' ∈ (normalizeHex "0B\t04").data ∧
    hexDigitVal? '\t' = none ∧
    parseHexPairs (normalizeHex "0B\t04").data = some [11, 4] ∧
    (parse_coding_bytes sampleBitDefs "17" "0B\t04").error = none ∧
    (parse_coding_bytes sampleBitDefs "17" "0B\t04").totalBits = 16 := by
  refine ⟨by decide, by decide, by decide, by decide, by decide⟩

/-- C3 amended: whenever the hex parse fails, decode returns a report with
the error field set to `"Invalid hex format"` and `knownBits = []`, not an
exception; the parse fails for every input that, after stripping spaces and
uppercasing, contains a character that is neither a hex digit nor ASCII
whitespace, or contains an odd number of hex digits — but ASCII whitespace
other than space (skipped by `bytes.fromhex` between byte pairs) is not by
itself an error. -/
theorem decode_invalid_hex_reported (bitDefs : List BitDef) (addr raw : String) :
    (parseHexPairs (normalizeHex raw).data = none →
      (parse_coding_bytes bitDefs addr raw).error = some "Invalid hex format" ∧
      (parse_coding_bytes bitDefs addr raw).knownBits = []) ∧
    ((∃ c ∈ (normalizeHex raw).data,
        hexDigitVal? c = none ∧ isPyAsciiSpace c = false) →
      (parse_coding_bytes bitDefs addr raw).error = some "Invalid hex format" ∧
      (parse_coding_bytes bitDefs addr raw).knownBits = []) ∧
    (((normalizeHex raw).data.countP fun c => (hexDigitVal? c).isSome) % 2 = 1 →
      (parse_coding_bytes bitDefs addr raw).error = some "Invalid hex format" ∧
      (parse_coding_bytes bitDefs addr raw).knownBits = []) := by
  have herr : parseHexPairs (normalizeHex raw).data = none →
      (parse_coding_bytes bitDefs addr raw).error = some "Invalid hex format" ∧
      (parse_coding_bytes bitDefs addr raw).knownBits = [] := by
    intro hnone
    constructor <;> simp [parse_coding_bytes, hnone]
  refine ⟨herr, ?_, ?_⟩
  · intro hex
    exact herr (parseHexPairs_none_of_bad_char _ hex)
  · intro hodd
    refine herr ?_
    cases he : parseHexPairs (normalizeHex raw).data with
    | none => rfl
    | some bs =>
      have := parseHexPairs_digit_count _ bs he
      omega

/-- C3 amended witness: `rawBytes = "ZZ"` (non-hex character) and
`rawBytes = "0B0"` (odd number of hex digits). -/
theorem decode_invalid_hex_reported_witness :
    (parse_coding_bytes sampleBitDefs "17" "ZZ").error = some "Invalid hex format" ∧
    (parse_coding_bytes sampleBitDefs "17" "ZZ").knownBits = [] ∧
    (parse_coding_bytes sampleBitDefs "17" "0B0").error = some "Invalid hex format" := by
  have h1 := (decode_invalid_hex_reported sampleBitDefs "17" "ZZ").2.1
    ⟨'Z', by decide, by decide, by decide⟩
  have h2 := (decode_invalid_hex_reported sampleBitDefs "17" "0B0").2.2
    (by decide)
  exact ⟨h1.1, h1.2, h2.1⟩

/-- C9: the classifier lowercases and trims the input and tests the fixed
per-group brand lists in fixed order, first match winning; `"Volkswagen Golf"`
maps to VAG, and empty or unmatched input maps to GENERIC. -/
theorem classifier_correct :
    get_manufacturer_group none = .GENERIC ∧
    get_manufacturer_group (some "") = .GENERIC ∧
    get_manufacturer_group (some "Volkswagen Golf") = .VAG ∧
    (∀ mk : String, makeMatches (normalizeMake mk) ALL_MAKES = false →
      get_manufacturer_group (some mk) = .GENERIC) ∧
    (∀ mk : String, makeMatches (normalizeMake mk) VAG_MAKES = true →
      get_manufacturer_group (some mk) = .VAG) ∧
    (∀ mk : String, makeMatches (normalizeMake mk) VAG_MAKES = false →
      makeMatches (normalizeMake mk) BMW_MAKES = true →
      get_manufacturer_group (some mk) = .BMW) := by
  refine ⟨by decide, by decide, by decide, ?_, ?_, ?_⟩
  · intro mk h
    by_cases hmk : mk = ""
    · simp [get_manufacturer_group, hmk]
    · simp only [ALL_MAKES, makeMatches, List.any_append, Bool.or_eq_false_iff]
        at h
      obtain ⟨⟨⟨⟨⟨⟨⟨⟨⟨h1, h2⟩, h3⟩, h4⟩, h5⟩, h6⟩, h7⟩, h8⟩, h9⟩, h10⟩ := h
      simp [get_manufacturer_group, hmk, makeMatches, h1, h2, h3, h4, h5, h6,
        h7, h8, h9, h10]
  · intro mk h
    have hmk : mk ≠ "" := by
      intro he
      subst he
      exact absurd h (by decide)
    simp [get_manufacturer_group, hmk, h]
  · intro mk hV hB
    have hmk : mk ≠ "" := by
      intro he
      subst he
      exact absurd hB (by decide)
    simp [get_manufacturer_group, hmk, hV, hB]

/-- C9 witness: `"unknown brand"` matches no group; `"  BMW 335i "` matches
BMW after trimming and lowercasing while matching no VAG brand. -/
theorem classifier_correct_witness :
    get_manufacturer_group (some "unknown brand") = .GENERIC ∧
    get_manufacturer_group (some "  BMW 335i ") = .BMW ∧
    get_manufacturer_group (some "Volkswagen Golf") = .VAG := by
  refine ⟨classifier_correct.2.2.2.1 "unknown brand" (by decide),
    classifier_correct.2.2.2.2.2 "  BMW 335i " (by decide) (by decide),
    classifier_correct.2.2.1⟩

/-- C5 counterexample: for a 17-character VIN the PID-discovery key is the
first 8 characters uppercased, not the first 11 the claim states; for a
3-character VIN it is `""`, not the full VIN. -/
theorem vin_key_counterexample :
    pidVinKey "WVWZZZ1KZAW000001" = "WVWZZZ1K" ∧
    specVinKey "WVWZZZ1KZAW000001" = "WVWZZZ1KZAW" ∧
    pidVinKey "WVWZZZ1KZAW000001" ≠ specVinKey "WVWZZZ1KZAW000001" ∧
    pidVinKey "abc" = "" ∧
    pidVinKey "abc" ≠ specVinKey "abc" := by
  refine ⟨by decide, by decide, by decide, by decide, by decide⟩

/-- C5 amended: `reportModule` keys by the first 11 characters of the VIN (the
full VIN when shorter, i.e. always `vin[:11]`), as the spec states; but
`reportPIDs` keys by the first 8 characters uppercased, and by `""` (report
rejected) when the VIN is shorter than 8 characters. -/
theorem vin_key_amended (vin : String) :
    moduleReportVinKey vin = strTake vin 11 ∧
    moduleReportVinKey vin = specVinKey vin ∧
    (moduleReportVinKey vin).length = min 11 vin.length ∧
    (8 ≤ vin.length →
      pidVinKey vin = strUpper (strTake vin 8) ∧ (pidVinKey vin).length = 8) ∧
    (vin.length < 8 → pidVinKey vin = "") := by
  obtain ⟨cs⟩ := vin
  have htake : moduleReportVinKey ⟨cs⟩ = strTake ⟨cs⟩ 11 := by
    unfold moduleReportVinKey
    split
    · rfl
    · rename_i hlt
      unfold strTake
      have : cs.length ≤ 11 := by
        simpa [String.length] using Nat.le_of_not_le hlt
      simp [List.take_of_length_le this]
  refine ⟨htake, ?_, ?_, ?_, ?_⟩
  · rw [htake]
    unfold specVinKey
    split
    · rename_i hlt
      unfold strTake
      have : cs.length ≤ 11 := by
        simpa [String.length] using Nat.le_of_lt hlt
      simp [List.take_of_length_le this]
    · rfl
  · rw [htake]
    simp [strTake, String.length]
  · intro h8
    have hcs : 8 ≤ cs.length := by simpa [String.length] using h8
    constructor
    · unfold pidVinKey
      rw [if_neg (by simpa [String.length] using Nat.not_lt.mpr hcs)]
    · unfold pidVinKey
      rw [if_neg (by simpa [String.length] using Nat.not_lt.mpr hcs)]
      simp [strUpper, strTake, String.length]
      omega
  · intro h8
    unfold pidVinKey
    rw [if_pos h8]

/-- C5 amended witness: the two key derivations on a 17-character VIN and the
PID-side rejection of a 3-character VIN. -/
theorem vin_key_amended_witness :
    moduleReportVinKey "WVWZZZ1KZAW000001" = "WVWZZZ1KZAW" ∧
    pidVinKey "WVWZZZ1KZAW000001" = strUpper (strTake "WVWZZZ1KZAW000001" 8) ∧
    (pidVinKey "WVWZZZ1KZAW000001").length = 8 ∧
    pidVinKey "abc" = "" := by
  have h1 := vin_key_amended "WVWZZZ1KZAW000001"
  have h2 := vin_key_amended "abc"
  refine ⟨?_, (h1.2.2.2.1 (by decide)).1, (h1.2.2.2.1 (by decide)).2,
    h2.2.2.2.2 (by decide)⟩
  rw [h1.1]
  decide

theorem confidenceStep_le (n : Nat) : confidenceStep n ≤ 0.95 := by
  unfold confidenceStep
  split
  · norm_num
  split
  · norm_num
  split
  · norm_num
  rename_i h1 h2 h3
  have hn : n ≤ 2 := by omega
  have hq : (n : ℚ) ≤ 2 := by exact_mod_cast hn
  nlinarith

/-- C4 counterexample: the first report for a VIN prefix creates the profile
with `sample_count = 1` and `confidence = 0.5`, not the step-function value
`0.6` that the claim asserts for `sample_count = 1`. -/
theorem confidence_counterexample :
    (updatePIDProfile none "WVWZZZ1K" .VAG ["boost_std_70"] []).sample_count = 1 ∧
    (updatePIDProfile none "WVWZZZ1K" .VAG ["boost_std_70"] []).confidence = 0.5 ∧
    confidenceStep 1 = 0.6 ∧
    (updatePIDProfile none "WVWZZZ1K" .VAG ["boost_std_70"] []).confidence ≠
      confidenceStep
        (updatePIDProfile none "WVWZZZ1K" .VAG ["boost_std_70"] []).sample_count := by
  refine ⟨rfl, rfl, by norm_num [confidenceStep], ?_⟩
  show (0.5 : ℚ) ≠ confidenceStep 1
  norm_num [confidenceStep]

/-- C4 amended: on every report that updates an existing profile, confidence
equals the step function of the updated sample count (`≥10 → 0.95`,
`≥5 → 0.85`, `≥3 → 0.75`, else `0.5 + 0.1 × sample_count`); the report that
creates the profile sets `sample_count = 1` with `confidence = 0.5` (not the
step value `0.6`); confidence never exceeds `0.95`. -/
theorem confidence_step_correct (p : PIDProfile) (vk : String)
    (m : ManufacturerGroup) (w f : List String) :
    (updatePIDProfile (some p) vk m w f).confidence =
      confidenceStep (updatePIDProfile (some p) vk m w f).sample_count ∧
    (updatePIDProfile none vk m w f).sample_count = 1 ∧
    (updatePIDProfile none vk m w f).confidence = 0.5 ∧
    (updatePIDProfile (some p) vk m w f).confidence ≤ 0.95 ∧
    (updatePIDProfile none vk m w f).confidence ≤ 0.95 := by
  refine ⟨rfl, rfl, rfl, confidenceStep_le _, by norm_num [updatePIDProfile]⟩

/-- C7: on every upsert the working and failed PID sets stay disjoint; working
membership is sticky: a PID in the profile's working set, or in the report's
working list, is in the resulting working set and not in the failed set —
so a PID once promoted to working can never return to failed. -/
theorem working_pids_sticky (vk : String) (m : ManufacturerGroup)
    (w f : List String) :
    (∀ q? : Option PIDProfile,
      Disjoint (updatePIDProfile q? vk m w f).working_pids
        (updatePIDProfile q? vk m w f).failed_pids) ∧
    (∀ (p : PIDProfile) (x : String), x ∈ p.working_pids →
      x ∈ (updatePIDProfile (some p) vk m w f).working_pids ∧
      x ∉ (updatePIDProfile (some p) vk m w f).failed_pids) ∧
    (∀ (q? : Option PIDProfile) (x : String), x ∈ w →
      x ∈ (updatePIDProfile q? vk m w f).working_pids ∧
      x ∉ (updatePIDProfile q? vk m w f).failed_pids) := by
  refine ⟨?_, ?_, ?_⟩
  · intro q?
    cases q? with
    | none =>
      simp only [updatePIDProfile]
      exact disjoint_sdiff_self_right
    | some p =>
      simp only [updatePIDProfile]
      exact disjoint_sdiff_self_right
  · intro p x hx
    constructor
    · simp only [updatePIDProfile]
      exact Finset.mem_union_left _ hx
    · simp only [updatePIDProfile, Finset.mem_sdiff, not_and, not_not]
      intro _
      exact Finset.mem_union_left _ hx
  · intro q? x hx
    cases q? with
    | none =>
      constructor
      · simp only [updatePIDProfile]
        exact List.mem_toFinset.mpr hx
      · simp only [updatePIDProfile, Finset.mem_sdiff, not_and, not_not]
        intro _
        exact List.mem_toFinset.mpr hx
    | some p =>
      constructor
      · simp only [updatePIDProfile]
        exact Finset.mem_union_right _ (List.mem_toFinset.mpr hx)
      · simp only [updatePIDProfile, Finset.mem_sdiff, not_and, not_not]
        intro _
        exact Finset.mem_union_right _ (List.mem_toFinset.mpr hx)

/-- C7 witness: the spec's scenario — report `working=["A"], failed=["B"]`,
then `working=["B"], failed=[]`, then any further report with `"B"` failed:
`"B"` stays working and never returns to failed. -/
theorem working_pids_sticky_witness :
    "B" ∈ (updatePIDProfile
      (some (updatePIDProfile none "WVWZZZ1K" .VAG ["A"] ["B"]))
      "WVWZZZ1K" .VAG ["B"] []).working_pids ∧
    "B" ∉ (updatePIDProfile
      (some (updatePIDProfile none "WVWZZZ1K" .VAG ["A"] ["B"]))
      "WVWZZZ1K" .VAG ["B"] []).failed_pids ∧
    "B" ∈ (updatePIDProfile
      (some (updatePIDProfile
        (some (updatePIDProfile none "WVWZZZ1K" .VAG ["A"] ["B"]))
        "WVWZZZ1K" .VAG ["B"] []))
      "WVWZZZ1K" .VAG ["C"] ["B", "D"]).working_pids ∧
    "B" ∉ (updatePIDProfile
      (some (updatePIDProfile
        (some (updatePIDProfile none "WVWZZZ1K" .VAG ["A"] ["B"]))
        "WVWZZZ1K" .VAG ["B"] []))
      "WVWZZZ1K" .VAG ["C"] ["B", "D"]).failed_pids := by
  have h2 := (working_pids_sticky "WVWZZZ1K" .VAG ["B"] []).2.2
    (some (updatePIDProfile none "WVWZZZ1K" .VAG ["A"] ["B"])) "B"
    (by simp)
  have h3 := (working_pids_sticky "WVWZZZ1K" .VAG ["C"] ["B", "D"]).2.1
    (updatePIDProfile
      (some (updatePIDProfile none "WVWZZZ1K" .VAG ["A"] ["B"]))
      "WVWZZZ1K" .VAG ["B"] []) "B" h2.1
  exact ⟨h2.1, h2.2, h3.1, h3.2⟩

theorem convStep_fst_of_isSome (acc : Option String × Option String × Option String)
    (pid : String) (h : acc.1.isSome) : (convStep acc pid).1 = acc.1 := by
  obtain ⟨v, hv⟩ := Option.isSome_iff_exists.mp h
  unfold convStep
  split
  · rename_i hc
    rw [hv] at hc
    simp at hc
  split
  · rfl
  split
  · rfl
  · rfl

theorem convStep_snd_of_isSome (acc : Option String × Option String × Option String)
    (pid : String) (h : acc.2.1.isSome) : (convStep acc pid).2.1 = acc.2.1 := by
  obtain ⟨v, hv⟩ := Option.isSome_iff_exists.mp h
  unfold convStep
  split
  · rfl
  split
  · rename_i hc
    rw [hv] at hc
    simp at hc
  split
  · rfl
  · rfl

theorem convStep_thd_of_isSome (acc : Option String × Option String × Option String)
    (pid : String) (h : acc.2.2.isSome) : (convStep acc pid).2.2 = acc.2.2 := by
  obtain ⟨v, hv⟩ := Option.isSome_iff_exists.mp h
  unfold convStep
  split
  · rfl
  split
  · rfl
  split
  · rename_i hc
    rw [hv] at hc
    simp at hc
  · rfl

theorem convLoop_fst_of_isSome (pids : List String) :
    ∀ acc, acc.1.isSome → (convLoop acc pids).1 = acc.1 := by
  induction pids with
  | nil => intro acc _; rfl
  | cons pid rest ih =>
    intro acc h
    have hstep := convStep_fst_of_isSome acc pid h
    have hsome : ((convStep acc pid).1).isSome := by rw [hstep]; exact h
    have hrw : convLoop acc (pid :: rest) = convLoop (convStep acc pid) rest := rfl
    rw [hrw, ih _ hsome, hstep]

theorem convLoop_snd_of_isSome (pids : List String) :
    ∀ acc, acc.2.1.isSome → (convLoop acc pids).2.1 = acc.2.1 := by
  induction pids with
  | nil => intro acc _; rfl
  | cons pid rest ih =>
    intro acc h
    have hstep := convStep_snd_of_isSome acc pid h
    have hsome : ((convStep acc pid).2.1).isSome := by rw [hstep]; exact h
    have hrw : convLoop acc (pid :: rest) = convLoop (convStep acc pid) rest := rfl
    rw [hrw, ih _ hsome, hstep]

theorem convLoop_thd_of_isSome (pids : List String) :
    ∀ acc, acc.2.2.isSome → (convLoop acc pids).2.2 = acc.2.2 := by
  induction pids with
  | nil => intro acc _; rfl
  | cons pid rest ih =>
    intro acc h
    have hstep := convStep_thd_of_isSome acc pid h
    have hsome : ((convStep acc pid).2.2).isSome := by rw [hstep]; exact h
    have hrw : convLoop acc (pid :: rest) = convLoop (convStep acc pid) rest := rfl
    rw [hrw, ih _ hsome, hstep]

theorem convStep_fst_sound (acc : Option String × Option String × Option String)
    (pid : String) :
    (convStep acc pid).1 = acc.1 ∨
      ((convStep acc pid).1 = some pid ∧
        strContains (strLower pid) "boost" = true) := by
  unfold convStep
  split
  · rename_i hc
    exact Or.inr ⟨rfl, by simp at hc; exact hc.1⟩
  split
  · exact Or.inl rfl
  split
  · exact Or.inl rfl
  · exact Or.inl rfl

theorem convStep_snd_sound (acc : Option String × Option String × Option String)
    (pid : String) :
    (convStep acc pid).2.1 = acc.2.1 ∨
      ((convStep acc pid).2.1 = some pid ∧
        strContains (strLower pid) "oil_temp" = true) := by
  unfold convStep
  split
  · exact Or.inl rfl
  split
  · rename_i hc
    exact Or.inr ⟨rfl, by simp at hc; exact hc.1⟩
  split
  · exact Or.inl rfl
  · exact Or.inl rfl

theorem convStep_thd_sound (acc : Option String × Option String × Option String)
    (pid : String) :
    (convStep acc pid).2.2 = acc.2.2 ∨
      ((convStep acc pid).2.2 = some pid ∧
        strContains (strLower pid) "charge_air" = true) := by
  unfold convStep
  split
  · exact Or.inl rfl
  split
  · exact Or.inl rfl
  split
  · rename_i hc
    exact Or.inr ⟨rfl, by simp at hc; exact hc.1⟩
  · exact Or.inl rfl

theorem convLoop_fst_sound (pids : List String) :
    ∀ acc, (convLoop acc pids).1 = acc.1 ∨
      ∃ pid ∈ pids, (convLoop acc pids).1 = some pid ∧
        strContains (strLower pid) "boost" = true := by
  induction pids with
  | nil => intro acc; exact Or.inl rfl
  | cons pid rest ih =>
    intro acc
    have hrw : convLoop acc (pid :: rest) = convLoop (convStep acc pid) rest := rfl
    rcases ih (convStep acc pid) with h | ⟨q, hq, hval, hcont⟩
    · rcases convStep_fst_sound acc pid with h2 | ⟨h2, hcont⟩
      · exact Or.inl (by rw [hrw, h, h2])
      · exact Or.inr ⟨pid, by simp, by rw [hrw, h, h2], hcont⟩
    · exact Or.inr ⟨q, by simp [hq], by rw [hrw]; exact hval, hcont⟩

theorem convLoop_snd_sound (pids : List String) :
    ∀ acc, (convLoop acc pids).2.1 = acc.2.1 ∨
      ∃ pid ∈ pids, (convLoop acc pids).2.1 = some pid ∧
        strContains (strLower pid) "oil_temp" = true := by
  induction pids with
  | nil => intro acc; exact Or.inl rfl
  | cons pid rest ih =>
    intro acc
    have hrw : convLoop acc (pid :: rest) = convLoop (convStep acc pid) rest := rfl
    rcases ih (convStep acc pid) with h | ⟨q, hq, hval, hcont⟩
    · rcases convStep_snd_sound acc pid with h2 | ⟨h2, hcont⟩
      · exact Or.inl (by rw [hrw, h, h2])
      · exact Or.inr ⟨pid, by simp, by rw [hrw, h, h2], hcont⟩
    · exact Or.inr ⟨q, by simp [hq], by rw [hrw]; exact hval, hcont⟩

theorem convLoop_thd_sound (pids : List String) :
    ∀ acc, (convLoop acc pids).2.2 = acc.2.2 ∨
      ∃ pid ∈ pids, (convLoop acc pids).2.2 = some pid ∧
        strContains (strLower pid) "charge_air" = true := by
  induction pids with
  | nil => intro acc; exact Or.inl rfl
  | cons pid rest ih =>
    intro acc
    have hrw : convLoop acc (pid :: rest) = convLoop (convStep acc pid) rest := rfl
    rcases ih (convStep acc pid) with h | ⟨q, hq, hval, hcont⟩
    · rcases convStep_thd_sound acc pid with h2 | ⟨h2, hcont⟩
      · exact Or.inl (by rw [hrw, h, h2])
      · exact Or.inr ⟨pid, by simp, by rw [hrw, h, h2], hcont⟩
    · exact Or.inr ⟨q, by simp [hq], by rw [hrw]; exact hval, hcont⟩

theorem convLoop_fst_complete (pids : List String) :
    ∀ acc, acc.1 = none →
      (∃ pid ∈ pids, strContains (strLower pid) "boost" = true) →
      ((convLoop acc pids).1).isSome := by
  induction pids with
  | nil =>
    intro acc _ hex
    simp at hex
  | cons pid rest ih =>
    intro acc hnone hex
    have hrw : convLoop acc (pid :: rest) = convLoop (convStep acc pid) rest := rfl
    by_cases hs : ((convStep acc pid).1).isSome
    · rw [hrw, convLoop_fst_of_isSome rest _ hs]
      exact hs
    · have hstep_none : (convStep acc pid).1 = none :=
        Option.not_isSome_iff_eq_none.mp hs
      have hpid : strContains (strLower pid) "boost" = false := by
        cases hcb : strContains (strLower pid) "boost" with
        | false => rfl
        | true =>
          have hset : (convStep acc pid).1 = some pid := by
            unfold convStep
            have hcond : (strContains (strLower pid) "boost" && acc.1.isNone) = true := by
              simp [hnone, hcb]
            rw [if_pos hcond]
          rw [hset] at hstep_none
          cases hstep_none
      obtain ⟨q, hq, hqc⟩ := hex
      rcases List.mem_cons.mp hq with rfl | hq'
      · rw [hqc] at hpid
        cases hpid
      · rw [hrw]
        exact ih (convStep acc pid) hstep_none ⟨q, hq', hqc⟩

theorem convLoop_snd_complete (pids : List String) :
    ∀ acc, acc.2.1 = none →
      (∃ pid ∈ pids, strContains (strLower pid) "oil_temp" = true ∧
        strContains (strLower pid) "boost" = false) →
      ((convLoop acc pids).2.1).isSome := by
  induction pids with
  | nil =>
    intro acc _ hex
    simp at hex
  | cons pid rest ih =>
    intro acc hnone hex
    have hrw : convLoop acc (pid :: rest) = convLoop (convStep acc pid) rest := rfl
    by_cases hs : ((convStep acc pid).2.1).isSome
    · rw [hrw, convLoop_snd_of_isSome rest _ hs]
      exact hs
    · have hstep_none : (convStep acc pid).2.1 = none :=
        Option.not_isSome_iff_eq_none.mp hs
      have hpid : ¬ (strContains (strLower pid) "oil_temp" = true ∧
          strContains (strLower pid) "boost" = false) := by
        rintro ⟨ho, hb⟩
        have hset : (convStep acc pid).2.1 = some pid := by
          unfold convStep
          have hcond1 : (strContains (strLower pid) "boost" && acc.1.isNone) = false := by
            simp [hb]
          have hcond2 : (strContains (strLower pid) "oil_temp" && acc.2.1.isNone) = true := by
            simp [hnone, ho]
          rw [if_neg (by simp [hcond1]), if_pos hcond2]
        rw [hset] at hstep_none
        cases hstep_none
      obtain ⟨q, hq, hqc⟩ := hex
      rcases List.mem_cons.mp hq with rfl | hq'
      · exact absurd hqc hpid
      · rw [hrw]
        exact ih (convStep acc pid) hstep_none ⟨q, hq', hqc⟩

theorem convLoop_thd_complete (pids : List String) :
    ∀ acc, acc.2.2 = none →
      (∃ pid ∈ pids, strContains (strLower pid) "charge_air" = true ∧
        strContains (strLower pid) "boost" = false ∧
        strContains (strLower pid) "oil_temp" = false) →
      ((convLoop acc pids).2.2).isSome := by
  induction pids with
  | nil =>
    intro acc _ hex
    simp at hex
  | cons pid rest ih =>
    intro acc hnone hex
    have hrw : convLoop acc (pid :: rest) = convLoop (convStep acc pid) rest := rfl
    by_cases hs : ((convStep acc pid).2.2).isSome
    · rw [hrw, convLoop_thd_of_isSome rest _ hs]
      exact hs
    · have hstep_none : (convStep acc pid).2.2 = none :=
        Option.not_isSome_iff_eq_none.mp hs
      have hpid : ¬ (strContains (strLower pid) "charge_air" = true ∧
          strContains (strLower pid) "boost" = false ∧
          strContains (strLower pid) "oil_temp" = false) := by
        rintro ⟨hc, hb, ho⟩
        have hset : (convStep acc pid).2.2 = some pid := by
          unfold convStep
          have hcond3 : (strContains (strLower pid) "charge_air" && acc.2.2.isNone) = true := by
            simp [hnone, hc]
          rw [if_neg (by simp [hb]), if_neg (by simp [ho]), if_pos hcond3]
        rw [hset] at hstep_none
        cases hstep_none
      obtain ⟨q, hq, hqc⟩ := hex
      rcases List.mem_cons.mp hq with rfl | hq'
      · exact absurd hqc hpid
      · rw [hrw]
        exact ih (convStep acc pid) hstep_none ⟨q, hq', hqc⟩

/-- C8 counterexample: the trans-temp field is never set by a report — after
a report whose working list is `["trans_temp_std"]` (whose lowercase id
contains `"trans_temp"`) against a profile with the field unset, the field is
still unset, both on profile update and on profile creation. -/
theorem convenience_fields_counterexample :
    strContains (strLower "trans_temp_std") "trans_temp" = true ∧
    (updatePIDProfile (some sampleProfile) "WVWZZZ1K" .VAG
      ["trans_temp_std"] []).trans_temp_pid = none ∧
    (updatePIDProfile none "WVWZZZ1K" .VAG
      ["trans_temp_std"] []).trans_temp_pid = none := by
  exact ⟨by decide, rfl, rfl⟩

/-- C8 amended: only three convenience fields (boost, oil-temp,
charge-air-temp) are set opportunistically on a report — each only when
currently unset, only to a working PID id whose lowercase form contains the
matching keyword (keywords tested in the order boost, oil_temp, charge_air
for each id), and an already-set field is left unchanged; the trans-temp
field is never modified by a report. -/
theorem convenience_fields_amended (p : PIDProfile) (vk : String)
    (m : ManufacturerGroup) (w f : List String) :
    ((PIDProfile.boost_pid p).isSome →
      (updatePIDProfile (some p) vk m w f).boost_pid = p.boost_pid) ∧
    ((PIDProfile.oil_temp_pid p).isSome →
      (updatePIDProfile (some p) vk m w f).oil_temp_pid = p.oil_temp_pid) ∧
    ((PIDProfile.charge_air_temp_pid p).isSome →
      (updatePIDProfile (some p) vk m w f).charge_air_temp_pid =
        p.charge_air_temp_pid) ∧
    (updatePIDProfile (some p) vk m w f).trans_temp_pid = p.trans_temp_pid ∧
    (updatePIDProfile none vk m w f).trans_temp_pid = none ∧
    ((updatePIDProfile (some p) vk m w f).boost_pid = p.boost_pid ∨
      ∃ pid ∈ w, (updatePIDProfile (some p) vk m w f).boost_pid = some pid ∧
        strContains (strLower pid) "boost" = true) ∧
    ((updatePIDProfile (some p) vk m w f).oil_temp_pid = p.oil_temp_pid ∨
      ∃ pid ∈ w, (updatePIDProfile (some p) vk m w f).oil_temp_pid = some pid ∧
        strContains (strLower pid) "oil_temp" = true) ∧
    ((updatePIDProfile (some p) vk m w f).charge_air_temp_pid =
        p.charge_air_temp_pid ∨
      ∃ pid ∈ w,
        (updatePIDProfile (some p) vk m w f).charge_air_temp_pid = some pid ∧
        strContains (strLower pid) "charge_air" = true) ∧
    (PIDProfile.boost_pid p = none →
      (∃ pid ∈ w, strContains (strLower pid) "boost" = true) →
      ((updatePIDProfile (some p) vk m w f).boost_pid).isSome) ∧
    (PIDProfile.oil_temp_pid p = none →
      (∃ pid ∈ w, strContains (strLower pid) "oil_temp" = true ∧
        strContains (strLower pid) "boost" = false) →
      ((updatePIDProfile (some p) vk m w f).oil_temp_pid).isSome) ∧
    (PIDProfile.charge_air_temp_pid p = none →
      (∃ pid ∈ w, strContains (strLower pid) "charge_air" = true ∧
        strContains (strLower pid) "boost" = false ∧
        strContains (strLower pid) "oil_temp" = false) →
      ((updatePIDProfile (some p) vk m w f).charge_air_temp_pid).isSome) ∧
    ((updatePIDProfile none vk m w f).boost_pid = none ∨
      ∃ pid ∈ w, (updatePIDProfile none vk m w f).boost_pid = some pid ∧
        strContains (strLower pid) "boost" = true) ∧
    ((updatePIDProfile none vk m w f).oil_temp_pid = none ∨
      ∃ pid ∈ w, (updatePIDProfile none vk m w f).oil_temp_pid = some pid ∧
        strContains (strLower pid) "oil_temp" = true) ∧
    ((updatePIDProfile none vk m w f).charge_air_temp_pid = none ∨
      ∃ pid ∈ w, (updatePIDProfile none vk m w f).charge_air_temp_pid = some pid ∧
        strContains (strLower pid) "charge_air" = true) ∧
    ((∃ pid ∈ w, strContains (strLower pid) "boost" = true) →
      ((updatePIDProfile none vk m w f).boost_pid).isSome) ∧
    ((∃ pid ∈ w, strContains (strLower pid) "oil_temp" = true ∧
        strContains (strLower pid) "boost" = false) →
      ((updatePIDProfile none vk m w f).oil_temp_pid).isSome) ∧
    ((∃ pid ∈ w, strContains (strLower pid) "charge_air" = true ∧
        strContains (strLower pid) "boost" = false ∧
        strContains (strLower pid) "oil_temp" = false) →
      ((updatePIDProfile none vk m w f).charge_air_temp_pid).isSome) := by
  refine ⟨?_, ?_, ?_, rfl, rfl, ?_, ?_, ?_, ?_, ?_, ?_, ?_, ?_, ?_, ?_, ?_, ?_⟩
  · intro h
    exact convLoop_fst_of_isSome w
      (p.boost_pid, p.oil_temp_pid, p.charge_air_temp_pid) h
  · intro h
    exact convLoop_snd_of_isSome w
      (p.boost_pid, p.oil_temp_pid, p.charge_air_temp_pid) h
  · intro h
    exact convLoop_thd_of_isSome w
      (p.boost_pid, p.oil_temp_pid, p.charge_air_temp_pid) h
  · exact convLoop_fst_sound w
      (p.boost_pid, p.oil_temp_pid, p.charge_air_temp_pid)
  · exact convLoop_snd_sound w
      (p.boost_pid, p.oil_temp_pid, p.charge_air_temp_pid)
  · exact convLoop_thd_sound w
      (p.boost_pid, p.oil_temp_pid, p.charge_air_temp_pid)
  · intro h hex
    exact convLoop_fst_complete w
      (p.boost_pid, p.oil_temp_pid, p.charge_air_temp_pid) h hex
  · intro h hex
    exact convLoop_snd_complete w
      (p.boost_pid, p.oil_temp_pid, p.charge_air_temp_pid) h hex
  · intro h hex
    exact convLoop_thd_complete w
      (p.boost_pid, p.oil_temp_pid, p.charge_air_temp_pid) h hex
  · exact convLoop_fst_sound w (none, none, none)
  · exact convLoop_snd_sound w (none, none, none)
  · exact convLoop_thd_sound w (none, none, none)
  · intro hex
    exact convLoop_fst_complete w (none, none, none) rfl hex
  · intro hex
    exact convLoop_snd_complete w (none, none, none) rfl hex
  · intro hex
    exact convLoop_thd_complete w (none, none, none) rfl hex

/-- C8 amended witness: a report with one id per keyword fills all three
fields both when updating an empty profile and when creating the profile,
leaves trans-temp unset, and an already-set boost field survives a later
boost-matching report unchanged. -/
theorem convenience_fields_amended_witness :
    ((updatePIDProfile (some sampleProfile) "WVWZZZ1K" .VAG
      ["x_boost_1", "my_oil_temp", "charge_air_z"] []).boost_pid).isSome ∧
    ((updatePIDProfile (some sampleProfile) "WVWZZZ1K" .VAG
      ["x_boost_1", "my_oil_temp", "charge_air_z"] []).oil_temp_pid).isSome ∧
    ((updatePIDProfile (some sampleProfile) "WVWZZZ1K" .VAG
      ["x_boost_1", "my_oil_temp", "charge_air_z"] []).charge_air_temp_pid).isSome ∧
    (updatePIDProfile (some sampleProfile) "WVWZZZ1K" .VAG
      ["x_boost_1", "my_oil_temp", "charge_air_z"] []).trans_temp_pid = none ∧
    (updatePIDProfile (some { sampleProfile with boost_pid := some "BP" })
      "WVWZZZ1K" .VAG ["x_boost_1"] []).boost_pid = some "BP" ∧
    ((updatePIDProfile none "WVWZZZ1K" .VAG
      ["x_boost_1", "my_oil_temp", "charge_air_z"] []).boost_pid).isSome ∧
    ((updatePIDProfile none "WVWZZZ1K" .VAG
      ["x_boost_1", "my_oil_temp", "charge_air_z"] []).oil_temp_pid).isSome ∧
    ((updatePIDProfile none "WVWZZZ1K" .VAG
      ["x_boost_1", "my_oil_temp", "charge_air_z"] []).charge_air_temp_pid).isSome ∧
    (updatePIDProfile none "WVWZZZ1K" .VAG
      ["x_boost_1", "my_oil_temp", "charge_air_z"] []).trans_temp_pid = none := by
  obtain ⟨a1, a2, a3, a4, a5, a6, a7, a8, a9, a10, a11, a12, a13, a14, a15,
    a16, a17⟩ :=
    convenience_fields_amended sampleProfile "WVWZZZ1K" .VAG
      ["x_boost_1", "my_oil_temp", "charge_air_z"] []
  obtain ⟨b1, b2⟩ :=
    convenience_fields_amended { sampleProfile with boost_pid := some "BP" }
      "WVWZZZ1K" .VAG ["x_boost_1"] []
  refine ⟨a9 rfl ⟨"x_boost_1", by simp, by decide⟩,
    a10 rfl ⟨"my_oil_temp", by simp, by decide, by decide⟩,
    a11 rfl ⟨"charge_air_z", by simp, by decide, by decide, by decide⟩,
    a4.trans rfl, (b1 rfl).trans rfl,
    a15 ⟨"x_boost_1", by simp, by decide⟩,
    a16 ⟨"my_oil_temp", by simp, by decide, by decide⟩,
    a17 ⟨"charge_air_z", by simp, by decide, by decide, by decide⟩,
    a5⟩

/-- C6 (code-bug evidence): an active VAG module row with no platform
restriction (`platforms = NULL`, as every seeded row has) is excluded by a
platform-filtered `listModules` query — the result is empty although the
claim states unrestricted rows are always included (as the sibling coding-bit
query indeed does); without a platform filter the row is returned. -/
theorem listModules_platform_null_excluded :
    get_modules_for_manufacturer
      [{ manufacturer := .VAG, address := "09", name := "Central Electronics",
         long_name := some "Central Electronics (BCM)", can_id := "710",
         coding_supported := true, platforms := none, is_active := true,
         priority := 5 }] .VAG (some "MQB") = [] ∧
    get_modules_for_manufacturer
      [{ manufacturer := .VAG, address := "09", name := "Central Electronics",
         long_name := some "Central Electronics (BCM)", can_id := "710",
         coding_supported := true, platforms := none, is_active := true,
         priority := 5 }] .VAG none =
      [{ manufacturer := .VAG, address := "09", name := "Central Electronics",
         long_name := some "Central Electronics (BCM)", can_id := "710",
         coding_supported := true, platforms := none, is_active := true,
         priority := 5 }] := by
  constructor <;> rfl

theorem matchesKey_seedPoint (a : String) (m : SeedModule) (r : ModuleRow) :
    matchesKey a (seedPoint m r) = matchesKey a r := by
  unfold seedPoint
  split <;> rfl

theorem manufacturer_seedPoint (m : SeedModule) (r : ModuleRow) :
    (seedPoint m r).manufacturer = r.manufacturer := by
  unfold seedPoint
  split <;> rfl

theorem any_matchesKey_seedStep (a : String) (table : List ModuleRow)
    (m : SeedModule) (h : table.any (matchesKey a) = true) :
    (seedStep table m).any (matchesKey a) = true := by
  unfold seedStep
  split
  · rw [List.any_map]
    have hc : (matchesKey a ∘ seedPoint m) = matchesKey a := by
      funext r
      exact matchesKey_seedPoint a m r
    rw [hc]
    exact h
  · rw [List.any_append]
    simp [h]

theorem seedStep_has_own_key (table : List ModuleRow) (m : SeedModule) :
    (seedStep table m).any (matchesKey m.address) = true := by
  unfold seedStep
  split
  · rename_i h
    rw [List.any_map]
    have hc : (matchesKey m.address ∘ seedPoint m) = matchesKey m.address := by
      funext r
      exact matchesKey_seedPoint m.address m r
    rw [hc]
    exact h
  · rw [List.any_append]
    have hnew : matchesKey m.address (newModuleRow m) = true := by
      unfold matchesKey newModuleRow
      simp
    simp [hnew]

theorem countVAG_seedStep_of_mem (table : List ModuleRow) (m : SeedModule)
    (h : table.any (matchesKey m.address) = true) :
    countVAG (seedStep table m) = countVAG table := by
  unfold seedStep
  rw [if_pos h]
  unfold countVAG
  rw [List.countP_map]
  congr 1
  funext r
  simp [Function.comp, manufacturer_seedPoint]

theorem length_seedStep_of_mem (table : List ModuleRow) (m : SeedModule)
    (h : table.any (matchesKey m.address) = true) :
    (seedStep table m).length = table.length := by
  unfold seedStep
  rw [if_pos h]
  exact List.length_map _ _

theorem any_matchesKey_foldl (ms : List SeedModule) :
    ∀ (table : List ModuleRow) (a : String),
      table.any (matchesKey a) = true →
      (ms.foldl seedStep table).any (matchesKey a) = true := by
  induction ms with
  | nil => intro t a h; exact h
  | cons m rest ih =>
    intro t a h
    exact ih (seedStep t m) a (any_matchesKey_seedStep a t m h)

theorem foldl_seedStep_has_keys (ms : List SeedModule) :
    ∀ (table : List ModuleRow) (m : SeedModule), m ∈ ms →
      (ms.foldl seedStep table).any (matchesKey m.address) = true := by
  induction ms with
  | nil =>
    intro t m hm
    cases hm
  | cons m0 rest ih =>
    intro t m hm
    rcases List.mem_cons.mp hm with rfl | hm'
    · exact any_matchesKey_foldl rest (seedStep t m) m.address
        (seedStep_has_own_key t m)
    · exact ih (seedStep t m0) m hm'

theorem countVAG_foldl_of_keys (ms : List SeedModule) :
    ∀ table : List ModuleRow,
      (∀ m ∈ ms, table.any (matchesKey m.address) = true) →
      countVAG (ms.foldl seedStep table) = countVAG table := by
  induction ms with
  | nil => intro t _; rfl
  | cons m0 rest ih =>
    intro t h
    have h0 := h m0 (by simp)
    have hrest : ∀ m ∈ rest, (seedStep t m0).any (matchesKey m.address) = true :=
      fun m hm => any_matchesKey_seedStep _ t m0 (h m (by simp [hm]))
    show countVAG (rest.foldl seedStep (seedStep t m0)) = countVAG t
    rw [ih _ hrest, countVAG_seedStep_of_mem t m0 h0]

theorem length_foldl_of_keys (ms : List SeedModule) :
    ∀ table : List ModuleRow,
      (∀ m ∈ ms, table.any (matchesKey m.address) = true) →
      (ms.foldl seedStep table).length = table.length := by
  induction ms with
  | nil => intro t _; rfl
  | cons m0 rest ih =>
    intro t h
    have h0 := h m0 (by simp)
    have hrest : ∀ m ∈ rest, (seedStep t m0).any (matchesKey m.address) = true :=
      fun m hm => any_matchesKey_seedStep _ t m0 (h m (by simp [hm]))
    show (rest.foldl seedStep (seedStep t m0)).length = t.length
    rw [ih _ hrest, length_seedStep_of_mem t m0 h0]

/-- C10: the administrative VAG module seed is idempotent — re-running it on
any table updates existing `(VAG, address)` rows in place, so neither the
VAG module count nor the table length grows on a second run; on an empty
table the seed creates exactly the 38 catalog rows. -/
theorem seed_vag_modules_idempotent (table : List ModuleRow) :
    countVAG (seed_vag_modules (seed_vag_modules table)) =
      countVAG (seed_vag_modules table) ∧
    (seed_vag_modules (seed_vag_modules table)).length =
      (seed_vag_modules table).length ∧
    countVAG (seed_vag_modules []) = 38 := by
  have hkeys : ∀ m ∈ vag_modules,
      (seed_vag_modules table).any (matchesKey m.address) = true :=
    fun m hm => foldl_seedStep_has_keys vag_modules table m hm
  refine ⟨countVAG_foldl_of_keys vag_modules _ hkeys,
    length_foldl_of_keys vag_modules _ hkeys, by decide⟩
